import Mathlib

/-!
Verification of the media-query PostCSS core (src/postcss.js).

The source manipulates JavaScript numbers that can be finite, an infinity,
or NaN (the parser produces NaN for an absent width token via
`+(... ?? undefined)`).  We embed JavaScript numbers relevant to this
program as `JSNum` with the IEEE comparison semantics the code relies on:
every comparison involving NaN is false, and `==` on NaN is false.

Values flowing through the subtraction pipeline are either a bounds
object, `null` (the Empty marker), or an array of the former two; these
are embedded as `Option Bounds` for a possibly-null scalar and `BVal` for
the full value domain of `subtractBounds`.

A JavaScript function whose parameter destructures `{minWidth, maxWidth}`
throws a TypeError when applied to `null`; such applications are embedded
by the `...V` wrappers returning `Option`, where `none` is the raised
error.
-/

namespace MQ

/-- Embedding of the JavaScript numbers this program computes with:
integers, the two infinities, and NaN. -/
inductive JSNum where
  | int : Int → JSNum
  | negInf : JSNum
  | posInf : JSNum
  | nan : JSNum
deriving DecidableEq, Repr

namespace JSNum

/-- JavaScript `a < b` (false whenever either side is NaN). -/
def lt : JSNum → JSNum → Bool
  | nan, _ => false
  | _, nan => false
  | int a, int b => decide (a < b)
  | int _, posInf => true
  | int _, negInf => false
  | negInf, negInf => false
  | negInf, _ => true
  | posInf, _ => false

/-- JavaScript `a <= b` (false whenever either side is NaN). -/
def le : JSNum → JSNum → Bool
  | nan, _ => false
  | _, nan => false
  | int a, int b => decide (a ≤ b)
  | int _, posInf => true
  | int _, negInf => false
  | negInf, _ => true
  | posInf, posInf => true
  | posInf, _ => false

/-- JavaScript `a > b`. -/
def gt (a b : JSNum) : Bool := lt b a

/-- JavaScript `a >= b`. -/
def ge (a b : JSNum) : Bool := le b a

/-- JavaScript `a == b` restricted to numbers (NaN equals nothing). -/
def jsEq : JSNum → JSNum → Bool
  | nan, _ => false
  | _, nan => false
  | int a, int b => decide (a = b)
  | negInf, negInf => true
  | posInf, posInf => true
  | _, _ => false

/-- JavaScript subtraction `a - b`. -/
def sub : JSNum → JSNum → JSNum
  | nan, _ => nan
  | _, nan => nan
  | int a, int b => int (a - b)
  | int _, negInf => posInf
  | int _, posInf => negInf
  | negInf, negInf => nan
  | negInf, _ => negInf
  | posInf, posInf => nan
  | posInf, _ => posInf

/-- JavaScript addition `a + b`. -/
def add : JSNum → JSNum → JSNum
  | nan, _ => nan
  | _, nan => nan
  | int a, int b => int (a + b)
  | int _, negInf => negInf
  | int _, posInf => posInf
  | negInf, posInf => nan
  | negInf, _ => negInf
  | posInf, negInf => nan
  | posInf, _ => posInf

/-- `true` for every JavaScript number that is not NaN. -/
def isNum : JSNum → Bool
  | nan => false
  | _ => true

end JSNum

/-- A `{minWidth, maxWidth}` bounds object of the source. -/
structure Bounds where
  minWidth : JSNum
  maxWidth : JSNum
deriving DecidableEq, Repr

/-- The Untracked sentinel: the bounds object `{NaN, NaN}` produced by the
parser when neither width token parsed. -/
def untracked : Bounds := ⟨JSNum.nan, JSNum.nan⟩

/-- `nullBounds` of the source: turns a bounds object whose endpoints are
`==`-equal into `null`. -/
def nullBounds (b : Bounds) : Option Bounds :=
  if b.minWidth.jsEq b.maxWidth then none else some b

/-- `boundsIncluded` of the source: B completely includes A. -/
def boundsIncluded (a b : Bounds) : Bool :=
  a.minWidth.ge b.minWidth && a.maxWidth.le b.maxWidth

/-- `boundsIntersects` of the source. -/
def boundsIntersects (a b : Bounds) : Bool :=
  if a.minWidth.le b.minWidth then a.maxWidth.gt b.minWidth
  else a.minWidth.lt b.maxWidth

/-- `getBoundsSize` of the source. -/
def getBoundsSize (b : Bounds) : JSNum :=
  let x := b.maxWidth.sub b.minWidth
  if x.gt (JSNum.int 1) then x.sub (JSNum.int 1) else JSNum.int 0

/-- Application of `boundsIncluded` to possibly-null values: the source
destructures both parameters, so a `null` argument raises (embedded as
`none`). -/
def boundsIncludedV (a b : Option Bounds) : Option Bool :=
  match a, b with
  | some a, some b => some (boundsIncluded a b)
  | _, _ => none

/-- Application of `boundsIntersects` to possibly-null values; a `null`
argument raises. -/
def boundsIntersectsV (a b : Option Bounds) : Option Bool :=
  match a, b with
  | some a, some b => some (boundsIntersects a b)
  | _, _ => none

/-- Application of `getBoundsSize` to a possibly-null value; `null`
raises. -/
def getBoundsSizeV (a : Option Bounds) : Option JSNum :=
  match a with
  | some a => some (getBoundsSize a)
  | none => none

/-- The value domain of `subtractBounds`: a bounds object, `null`, or an
array of possibly-null bounds. -/
inductive BVal where
  | nullB : BVal
  | bounds : Bounds → BVal
  | list : List (Option Bounds) → BVal
deriving DecidableEq, Repr

/-- The non-array branches of `subtractBounds` of the source, applied to a
possibly-null A and possibly-null B. -/
def subtractScalar (a : Option Bounds) (b : Option Bounds) : BVal :=
  match a with
  | none => BVal.nullB
  | some a =>
    match b with
    | none => BVal.bounds a
    | some b =>
      if boundsIncluded a b then BVal.nullB
      else if boundsIncluded b a then
        BVal.list ([Bounds.mk a.minWidth b.minWidth,
                    Bounds.mk b.maxWidth a.maxWidth].map nullBounds)
      else if boundsIntersects a b then
        if a.minWidth.lt b.minWidth then
          BVal.bounds (Bounds.mk a.minWidth b.minWidth)
        else
          BVal.bounds (Bounds.mk b.maxWidth a.maxWidth)
      else BVal.bounds a

/-- How `flatMap` treats a callback result: a non-array value becomes a
one-element list, an array is spliced in. -/
def toElems : BVal → List (Option Bounds)
  | BVal.nullB => [none]
  | BVal.bounds b => [some b]
  | BVal.list l => l

/-- `subtractBounds` of the source (the array case distributes the scalar
subtraction with `flatMap`). -/
def subtractBounds : BVal → Option Bounds → BVal
  | BVal.list l, b => BVal.list (l.flatMap (fun a => toElems (subtractScalar a b)))
  | BVal.nullB, _ => BVal.nullB
  | BVal.bounds a, b => subtractScalar (some a) b

/-- `subtractBounds`'s non-array path with every application of the
destructuring helpers tracked: if any of them were handed `null` the whole
computation would raise (`none`). -/
def subtractScalarChecked (a : Option Bounds) (b : Option Bounds) : Option BVal :=
  match a with
  | none => some BVal.nullB
  | some a2 =>
    match b with
    | none => some (BVal.bounds a2)
    | some b2 =>
      (boundsIncludedV (some a2) (some b2)).bind (fun i1 =>
        if i1 then some BVal.nullB
        else (boundsIncludedV (some b2) (some a2)).bind (fun i2 =>
          if i2 then
            some (BVal.list ([Bounds.mk a2.minWidth b2.minWidth,
                              Bounds.mk b2.maxWidth a2.maxWidth].map nullBounds))
          else (boundsIntersectsV (some a2) (some b2)).bind (fun i3 =>
            if i3 then
              (if a2.minWidth.lt b2.minWidth then
                some (BVal.bounds (Bounds.mk a2.minWidth b2.minWidth))
              else
                some (BVal.bounds (Bounds.mk b2.maxWidth a2.maxWidth)))
            else some (BVal.bounds a2))))

/-- Modelled from the spec: the external normalization collaborator
(`src/utils/normalize`, not part of the given source).  Per the spec it is
a pure `normalize(text) -> text` used identically by the parser and the
alias matcher to tolerate whitespace/quoting/formatting variance; it is
modelled as removing whitespace and quote characters. -/
def normalize (s : List Char) : List Char :=
  s.filter (fun c =>
    !(c == ' ' || c == '\x09' || c == '\x0a' || c == '\x0d' ||
      c == '\x22' || c == '\x27'))

/-- The literal body of `minWidthRegExp`. -/
def minToken : List Char := "min-width:".toList

/-- The literal body of `maxWidthRegExp`. -/
def maxToken : List Char := "max-width:".toList

/-- Splits off the leading run of decimal digits (the greedy match of
a digit-class repetition). -/
def takeDigits : List Char → List Char × List Char
  | [] => ([], [])
  | c :: rest =>
    if c.isDigit then
      let p := takeDigits rest
      (c :: p.1, p.2)
    else ([], c :: rest)

/-- Numeric value of a digit string (how `+"007"` evaluates). -/
def digitsToInt (acc : Int) : List Char → Int
  | [] => acc
  | c :: rest => digitsToInt (acc * 10 + ((c.toNat : Int) - 48)) rest

/-- Matches the sign-digits-unit tail of the regular expressions
(`([+-]?\d+)px`) at the start of `s`, returning the numeric value of the
captured signed digit string. -/
def matchNumPx (s : List Char) : Option Int :=
  let sp : Int × List Char :=
    match s with
    | '+' :: r => (1, r)
    | '-' :: r => (-1, r)
    | r => (1, r)
  let dp := takeDigits sp.2
  match dp.1 with
  | [] => none
  | _ =>
    match dp.2 with
    | 'p' :: 'x' :: _ => some (sp.1 * digitsToInt 0 dp.1)
    | _ => none

/-- Leftmost match of `tok` followed by `([+-]?\d+)px`, as
`RegExp.exec` finds it: the first start position where the whole pattern
matches wins. -/
def regexFind (tok : List Char) : List Char → Option Int
  | [] => none
  | c :: rest =>
    match (if tok.isPrefixOf (c :: rest) then
             matchNumPx ((c :: rest).drop tok.length)
           else none) with
    | some n => some n
    | none => regexFind tok rest

/-- `+(exec(...)?.[1] ?? undefined)`: a missing match coerces to NaN. -/
def toJSNum : Option Int → JSNum
  | none => JSNum.nan
  | some n => JSNum.int n

/-- `getQueryBounds` of the source. -/
def getQueryBounds (query : String) : Bounds :=
  let nquery := normalize query.toList
  let minWidth := toJSNum (regexFind minToken nquery)
  let maxWidth := toJSNum (regexFind maxToken nquery)
  if minWidth.gt (JSNum.int 0) || maxWidth.gt (JSNum.int 0) then
    { minWidth := if minWidth.ge (JSNum.int 0) then minWidth else JSNum.negInf,
      maxWidth := if maxWidth.ge (JSNum.int 0) then maxWidth else JSNum.posInf }
  else
    { minWidth := minWidth, maxWidth := maxWidth }

/-- The parser as the specification describes it, for comparison with
`getQueryBounds`: if either extracted value is a number strictly greater
than zero, a Bounds defaulting each non-(non-negative-number) side to the
matching infinity; otherwise the raw extracted pair (Untracked when
neither side parsed). -/
def parseSpecBounds (query : String) : Bounds :=
  let mn := regexFind minToken (normalize query.toList)
  let mx := regexFind maxToken (normalize query.toList)
  let posNum : Option Int → Bool := fun o =>
    match o with
    | some n => decide (0 < n)
    | none => false
  if posNum mn || posNum mx then
    { minWidth :=
        match mn with
        | some n => if 0 ≤ n then JSNum.int n else JSNum.negInf
        | none => JSNum.negInf,
      maxWidth :=
        match mx with
        | some n => if 0 ≤ n then JSNum.int n else JSNum.posInf
        | none => JSNum.posInf }
  else
    { minWidth := toJSNum mn, maxWidth := toJSNum mx }

/-- A configured group: a pattern the unit name must match, or an explicit
membership list (`RegExp` vs `Array` in the source). -/
inductive Group where
  | pattern : (String → Bool) → Group
  | members : List String → Group

/-- The options the plugin closure reads: `options.queries` (query string
to output name, in declared order), `options.groups`, `options.basename`. -/
structure MQOptions where
  queries : List (String × String)
  groups : List (String × Group)
  basename : String

/-- `getGroupName` of the source: first group, in declared order, that the
name matches. -/
def getGroupName (opts : MQOptions) (name : String) : Option String :=
  opts.groups.findSome? (fun p =>
    match p.2 with
    | Group.pattern f => if f name then some p.1 else none
    | Group.members l => if l.contains name then some p.1 else none)

/-- `getQueryNamesByBounds` of the source: breakpoints whose bounds
intersect the rule's bounds, in table order, as (name, query) pairs. -/
def getQueryNamesByBounds (opts : MQOptions) (queryBounds : Bounds) :
    List (String × String) :=
  (opts.queries.filter
    (fun p => boundsIntersects queryBounds (getQueryBounds p.1))).map
    (fun p => (p.2, p.1))

/-- `getQueryNamesByDefinition` of the source: breakpoints whose
normalized query string equals the normalized rule condition. -/
def getQueryNamesByDefinition (opts : MQOptions) (query : String) :
    List (String × String) :=
  (opts.queries.filter
    (fun p => normalize p.1.toList == normalize query.toList)).map
    (fun p => (p.2, p.1))

/-- The candidate list of the walkAtRules callback:
bounds matches then definition matches. -/
def queryNamesOf (opts : MQOptions) (params : String) : List (String × String) :=
  getQueryNamesByBounds opts (getQueryBounds params) ++
    getQueryNamesByDefinition opts params

/-- The bucket name composed for one candidate (`addToStore`'s first
argument). -/
def candidateLabel (opts : MQOptions) (queryName : String) : String :=
  match getGroupName opts opts.basename with
  | some g =>
    if g.isEmpty then opts.basename ++ "-" ++ queryName
    else g ++ "-" ++ queryName
  | none => opts.basename ++ "-" ++ queryName

/-- One iteration of the reduce in the callback: record the emission for
this candidate, then subtract its bounds from the running remainder. -/
def reduceStep (opts : MQOptions) (st : List String × BVal)
    (cand : String × String) : List String × BVal :=
  (st.1 ++ [candidateLabel opts cand.1],
   subtractBounds st.2 (some (getQueryBounds cand.2)))

/-- The emission trace and final remainder of one atRule: the reduce of
the source seeded with `[ruleQueryBounds]`. -/
def processAtRule (opts : MQOptions) (params : String) : List String × BVal :=
  (queryNamesOf opts params).foldl (reduceStep opts)
    ([], BVal.list [some (getQueryBounds params)])

/-- `.flat().filter(bounds => bounds).reduce((size, bounds) => size +
getBoundsSize(bounds), 0)` applied to a remainder list. -/
def remainderSize (l : List (Option Bounds)) : JSNum :=
  (l.filterMap id).foldl (fun s b => s.add (getBoundsSize b)) (JSNum.int 0)

/-- `boundsRemainderSize` of one atRule. -/
def boundsRemainderSize (opts : MQOptions) (params : String) : JSNum :=
  remainderSize (toElems (processAtRule opts params).2)

/-- The removal decision of the callback:
`queryNames.length > 0 && boundsRemainderSize == 0`. -/
def ruleRemoved (opts : MQOptions) (params : String) : Bool :=
  decide ((queryNamesOf opts params).length > 0) &&
    (boundsRemainderSize opts params).jsEq (JSNum.int 0)


namespace JSNum

@[simp] lemma nan_le (x : JSNum) : le nan x = false := by cases x <;> rfl

@[simp] lemma le_nan (x : JSNum) : le x nan = false := by cases x <;> rfl

@[simp] lemma nan_lt (x : JSNum) : lt nan x = false := by cases x <;> rfl

@[simp] lemma lt_nan (x : JSNum) : lt x nan = false := by cases x <;> rfl

@[simp] lemma nan_jsEq (x : JSNum) : jsEq nan x = false := by cases x <;> rfl

@[simp] lemma jsEq_nan (x : JSNum) : jsEq x nan = false := by cases x <;> rfl

/-- A true `<` forces both sides numeric. -/
lemma isNum_of_lt {x y : JSNum} (h : lt x y = true) :
    isNum x = true ∧ isNum y = true := by
  cases x <;> cases y <;> simp_all [lt, isNum]

/-- A true `<=` forces both sides numeric. -/
lemma isNum_of_le {x y : JSNum} (h : le x y = true) :
    isNum x = true ∧ isNum y = true := by
  cases x <;> cases y <;> simp_all [le, isNum]

lemma le_refl {x : JSNum} (h : isNum x = true) : le x x = true := by
  cases x <;> simp_all [le, isNum]

/-- On numeric values `<=` is total. -/
lemma le_of_not_le {x y : JSNum} (hx : isNum x = true) (hy : isNum y = true)
    (h : le x y = false) : le y x = true := by
  cases x <;> cases y <;> simp_all [le, isNum] <;> omega

/-- On numeric values a failed `<=` is a strict `>`. -/
lemma lt_of_not_le {x y : JSNum} (hx : isNum x = true) (hy : isNum y = true)
    (h : le x y = false) : lt y x = true := by
  cases x <;> cases y <;> simp_all [le, lt, isNum] <;> omega

lemma le_of_lt {x y : JSNum} (h : lt x y = true) : le x y = true := by
  cases x <;> cases y <;> simp_all [le, lt] <;> omega

lemma jsEq_false_of_lt {x y : JSNum} (h : lt x y = true) : jsEq x y = false := by
  cases x <;> cases y <;> simp_all [jsEq, lt] <;> omega

lemma not_lt_of_le {x y : JSNum} (h : le x y = true) : lt y x = false := by
  cases x <;> cases y <;> simp_all [le, lt] <;> omega

lemma le_trans {x y z : JSNum} (h1 : le x y = true) (h2 : le y z = true) :
    le x z = true := by
  cases x <;> cases y <;> cases z <;> simp_all [le] <;> omega

lemma lt_of_le_of_lt {x y z : JSNum} (h1 : le x y = true) (h2 : lt y z = true) :
    lt x z = true := by
  cases x <;> cases y <;> cases z <;> simp_all [le, lt] <;> omega

lemma lt_of_lt_of_le {x y z : JSNum} (h1 : lt x y = true) (h2 : le y z = true) :
    lt x z = true := by
  cases x <;> cases y <;> cases z <;> simp_all [le, lt] <;> omega

lemma lt_irrefl {x : JSNum} : lt x x = false := by
  cases x <;> simp [lt]

lemma le_antisymm_eq {x y : JSNum} (h1 : le x y = true) (h2 : le y x = true) :
    x = y := by
  cases x <;> cases y <;> simp_all [le] <;> omega

/-- On numeric values `==` is propositional equality. -/
lemma jsEq_eq {x y : JSNum} (hx : isNum x = true) (hy : isNum y = true) :
    jsEq x y = decide (x = y) := by
  cases x <;> cases y <;> simp_all [jsEq, isNum]

/-- On numeric values a failed `<` is a (non-strict) `>=`. -/
lemma le_of_not_lt {x y : JSNum} (hx : isNum x = true) (hy : isNum y = true)
    (h : lt x y = false) : le y x = true := by
  cases x <;> cases y <;> simp_all [le, lt, isNum] <;> omega

end JSNum


/-- C2: for every condition string the parser returns, when either
extracted width is strictly positive, the Bounds with each
non-(non-negative-number) side defaulted to the matching infinity, and
otherwise the raw extracted pair (Untracked when neither side parsed);
and parsing "screen" yields Untracked. -/
theorem claim_c2_parser_decision :
    (∀ q : String, getQueryBounds q = parseSpecBounds q) ∧
    getQueryBounds ("screen") = untracked := by
  refine ⟨?_, by decide⟩
  intro q
  simp only [getQueryBounds, parseSpecBounds]
  generalize regexFind minToken (normalize q.toList) = mn
  generalize regexFind maxToken (normalize q.toList) = mx
  cases mn <;> cases mx <;>
    simp [toJSNum, JSNum.gt, JSNum.ge, JSNum.lt, JSNum.le] <;>
      split_ifs <;> simp_all <;> omega

/-- C4 counterexample: the source `getBoundsSize` destructures its
argument, so applying it to the Empty marker raises a TypeError rather
than returning 0 as the claim states. -/
theorem claim_c4_size_empty_raises :
    getBoundsSizeV none = none ∧ getBoundsSizeV none ≠ some (JSNum.int 0) := by
  decide

/-- C4 (amended): for every Bounds, size is gap - 1 when gap > 1 and 0
otherwise; an Empty entry is filtered out before size is ever applied and
so contributes 0 to the remainder sum; a gap `==` 1 gives size 0; and
size is never negative. -/
theorem claim_c4_size_policy :
    (∀ b : Bounds,
      getBoundsSize b =
        (if (b.maxWidth.sub b.minWidth).gt (JSNum.int 1) then
          (b.maxWidth.sub b.minWidth).sub (JSNum.int 1)
        else JSNum.int 0)) ∧
    remainderSize [none] = JSNum.int 0 ∧
    (∀ b : Bounds, (b.maxWidth.sub b.minWidth).jsEq (JSNum.int 1) = true →
      getBoundsSize b = JSNum.int 0) ∧
    (∀ b : Bounds, (getBoundsSize b).lt (JSNum.int 0) = false) := by
  refine ⟨fun b => rfl, rfl, ?_, ?_⟩
  · intro b h
    have : b.maxWidth.sub b.minWidth = JSNum.int 1 := by
      cases hx : b.maxWidth.sub b.minWidth <;> simp_all [JSNum.jsEq]
    simp [getBoundsSize, this, JSNum.gt, JSNum.lt]
  · intro b
    simp only [getBoundsSize]
    cases hx : b.maxWidth.sub b.minWidth <;>
      simp [JSNum.gt, JSNum.lt, JSNum.sub] <;> split_ifs <;>
        simp_all [JSNum.lt] <;> omega

/-- C4 witness: a Bounds with gap exactly 1 has size 0. -/
theorem claim_c4_size_policy_witness :
    ((JSNum.int 4).sub (JSNum.int 3)).jsEq (JSNum.int 1) = true ∧
    getBoundsSize ⟨JSNum.int 3, JSNum.int 4⟩ = JSNum.int 0 :=
  ⟨by decide, claim_c4_size_policy.2.2.1 ⟨JSNum.int 3, JSNum.int 4⟩ (by decide)⟩

/-- C6 counterexample: inclusion and intersection destructure their
parameters, so handing them the Empty marker raises a TypeError instead
of returning a value; they are not total over Bounds/Empty/Untracked. -/
theorem claim_c6_empty_raises :
    boundsIncludedV none (some ⟨JSNum.int 0, JSNum.int 768⟩) = none ∧
    boundsIntersectsV (some ⟨JSNum.int 0, JSNum.int 768⟩) none = none := by
  decide

/-- C6 (amended): subtraction is total over the whole value domain — its
null guards fire before any destructuring helper is applied, so tracking
every helper application it still always returns a value — and included,
intersects, and size do return a value on every non-Empty (Bounds or
Untracked) argument combination. -/
theorem claim_c6_totality :
    (∀ a b : Option Bounds,
      subtractScalarChecked a b = some (subtractScalar a b)) ∧
    (∀ (l : List (Option Bounds)) (b : Option Bounds),
      subtractBounds (BVal.list l) b =
        BVal.list (l.flatMap (fun a => toElems (subtractScalar a b)))) ∧
    (∀ a b : Bounds,
      boundsIncludedV (some a) (some b) = some (boundsIncluded a b) ∧
      boundsIntersectsV (some a) (some b) = some (boundsIntersects a b) ∧
      getBoundsSizeV (some a) = some (getBoundsSize a)) := by
  refine ⟨?_, fun l b => rfl, fun a b => ⟨rfl, rfl, rfl⟩⟩
  intro a b
  cases a with
  | none => rfl
  | some a2 =>
    cases b with
    | none => rfl
    | some b2 =>
      simp only [subtractScalarChecked, subtractScalar, boundsIncludedV,
        boundsIntersectsV, Option.bind]
      split_ifs <;> rfl

/-- C7 counterexample: with V the Empty marker, inclusion and
intersection against Untracked do not return false — they raise a
TypeError on the null argument. -/
theorem claim_c7_empty_raises :
    boundsIncludedV (some untracked) none = none ∧
    boundsIncludedV (some untracked) none ≠ some false ∧
    boundsIntersectsV none (some untracked) = none := by
  decide

/-- C7 (amended): for every Bounds V (the Untracked sentinel included),
Untracked is never included in V, never includes V, and never intersects
V in either direction; with V Empty the calls raise instead. -/
theorem claim_c7_untracked_never_matches :
    ∀ v : Bounds,
      boundsIncluded untracked v = false ∧
      boundsIncluded v untracked = false ∧
      boundsIntersects untracked v = false ∧
      boundsIntersects v untracked = false := by
  intro v
  refine ⟨?_, ?_, ?_, ?_⟩ <;>
    simp [boundsIncluded, boundsIntersects, untracked, JSNum.ge, JSNum.gt]

/-- C8: subtracting a well-formed non-degenerate Bounds from itself
yields the Empty marker. -/
theorem claim_c8_subtract_self_empty :
    ∀ a : Bounds, a.minWidth.lt a.maxWidth = true →
      subtractBounds (BVal.bounds a) (some a) = BVal.nullB := by
  intro a h
  obtain ⟨hmin, hmax⟩ := JSNum.isNum_of_lt h
  have hstep : subtractBounds (BVal.bounds a) (some a) =
      subtractScalar (some a) (some a) := rfl
  have hinc : boundsIncluded a a = true := by
    simp [boundsIncluded, JSNum.ge, JSNum.le_refl hmin, JSNum.le_refl hmax]
  rw [hstep]
  simp [subtractScalar, hinc]

/-- C8 witness: subtracting the bounds of (min-width between 0 and 768)
from itself gives Empty. -/
theorem claim_c8_subtract_self_empty_witness :
    (JSNum.int 0).lt (JSNum.int 768) = true ∧
    subtractBounds (BVal.bounds ⟨JSNum.int 0, JSNum.int 768⟩)
      (some ⟨JSNum.int 0, JSNum.int 768⟩) = BVal.nullB :=
  ⟨by decide, claim_c8_subtract_self_empty ⟨JSNum.int 0, JSNum.int 768⟩ (by decide)⟩


/-- C9 counterexample: a degenerate Bounds A = [10,10] does not intersect
B = [0,10] under the tie-break, yet subtracting B does not return A — the
inclusion branch fires first and returns Empty. -/
theorem claim_c9_degenerate_counterexample :
    boundsIntersects ⟨JSNum.int 10, JSNum.int 10⟩ ⟨JSNum.int 0, JSNum.int 10⟩ =
      false ∧
    subtractBounds (BVal.bounds ⟨JSNum.int 10, JSNum.int 10⟩)
      (some ⟨JSNum.int 0, JSNum.int 10⟩) ≠
        BVal.bounds ⟨JSNum.int 10, JSNum.int 10⟩ := by
  decide

/-- C9 (amended): for non-degenerate Bounds A and B (each with
minWidth < maxWidth), if they do not intersect then subtracting B from A
returns A unchanged. -/
theorem claim_c9_disjoint_subtract_identity :
    ∀ a b : Bounds, a.minWidth.lt a.maxWidth = true →
      b.minWidth.lt b.maxWidth = true →
      boundsIntersects a b = false →
      subtractBounds (BVal.bounds a) (some b) = BVal.bounds a := by
  intro a b ha hb hint
  obtain ⟨hamin, hamax⟩ := JSNum.isNum_of_lt ha
  obtain ⟨hbmin, hbmax⟩ := JSNum.isNum_of_lt hb
  have hstep : subtractBounds (BVal.bounds a) (some b) =
      subtractScalar (some a) (some b) := rfl
  by_cases hle : a.minWidth.le b.minWidth = true
  · have hgt : a.maxWidth.gt b.minWidth = false := by
      simpa [boundsIntersects, hle] using hint
    have hsep : a.maxWidth.le b.minWidth = true :=
      JSNum.le_of_not_lt hbmin hamax hgt
    have hinc1 : boundsIncluded a b = false := by
      cases hq : boundsIncluded a b
      · rfl
      · exfalso
        simp only [boundsIncluded, Bool.and_eq_true, JSNum.ge] at hq
        have heq : a.minWidth = b.minWidth := JSNum.le_antisymm_eq hle hq.1
        have : a.minWidth.lt a.minWidth = true :=
          JSNum.lt_of_lt_of_le ha (heq ▸ hsep)
        simp [JSNum.lt_irrefl] at this
    have hinc2 : boundsIncluded b a = false := by
      cases hq : boundsIncluded b a
      · rfl
      · exfalso
        simp only [boundsIncluded, Bool.and_eq_true, JSNum.ge] at hq
        have h1 : b.minWidth.lt a.maxWidth = true :=
          JSNum.lt_of_lt_of_le hb hq.2
        have : a.maxWidth.lt a.maxWidth = true :=
          JSNum.lt_of_le_of_lt hsep h1
        simp [JSNum.lt_irrefl] at this
    rw [hstep]
    simp [subtractScalar, hinc1, hinc2, hint]
  · have hle' : a.minWidth.le b.minWidth = false := by
      simpa using hle
    have hlt : a.minWidth.lt b.maxWidth = false := by
      simpa [boundsIntersects, hle'] using hint
    have hsep : b.maxWidth.le a.minWidth = true :=
      JSNum.le_of_not_lt hamin hbmax hlt
    have hinc1 : boundsIncluded a b = false := by
      cases hq : boundsIncluded a b
      · rfl
      · exfalso
        simp only [boundsIncluded, Bool.and_eq_true, JSNum.ge] at hq
        have h1 : b.maxWidth.lt a.maxWidth = true :=
          JSNum.lt_of_le_of_lt hsep ha
        have : b.maxWidth.lt b.maxWidth = true :=
          JSNum.lt_of_lt_of_le h1 hq.2
        simp [JSNum.lt_irrefl] at this
    have hinc2 : boundsIncluded b a = false := by
      cases hq : boundsIncluded b a
      · rfl
      · exfalso
        simp only [boundsIncluded, Bool.and_eq_true, JSNum.ge] at hq
        rw [hq.1] at hle'
        simp at hle'
    rw [hstep]
    simp [subtractScalar, hinc1, hinc2, hint]

/-- C9 witness: two disjoint non-degenerate intervals, subtraction is the
identity. -/
theorem claim_c9_disjoint_subtract_identity_witness :
    (JSNum.int 0).lt (JSNum.int 10) = true ∧
    (JSNum.int 20).lt (JSNum.int 30) = true ∧
    boundsIntersects ⟨JSNum.int 0, JSNum.int 10⟩ ⟨JSNum.int 20, JSNum.int 30⟩ =
      false ∧
    subtractBounds (BVal.bounds ⟨JSNum.int 0, JSNum.int 10⟩)
      (some ⟨JSNum.int 20, JSNum.int 30⟩) =
        BVal.bounds ⟨JSNum.int 0, JSNum.int 10⟩ :=
  ⟨by decide, by decide, by decide,
    claim_c9_disjoint_subtract_identity ⟨JSNum.int 0, JSNum.int 10⟩
      ⟨JSNum.int 20, JSNum.int 30⟩ (by decide) (by decide) (by decide)⟩


/-- C5 counterexample: the parser does not enforce the Bounds invariant —
on "(min-width:800px)and(max-width:600px)" it returns a Bounds with
minWidth 800 greater than maxWidth 600, and on
"(min-width:10px)and(max-width:10px)" it returns a Bounds with
numerically equal endpoints instead of the Empty marker. -/
theorem claim_c5_parser_counterexample :
    getQueryBounds ("(min-width:800px)and(max-width:600px)") =
      Bounds.mk (JSNum.int 800) (JSNum.int 600) ∧
    (JSNum.int 800).le (JSNum.int 600) = false ∧
    getQueryBounds ("(min-width:10px)and(max-width:10px)") =
      Bounds.mk (JSNum.int 10) (JSNum.int 10) ∧
    (JSNum.int 10).jsEq (JSNum.int 10) = true := by
  decide

/-- C5 (amended): every Bounds newly constructed by the subtraction
operation from inputs whose endpoints are numeric or infinite sentinels
satisfies minWidth <= maxWidth with endpoints not numerically equal (the
split branch normalizes a degenerate member to the Empty marker); a
non-new result can only be the left operand passed through unchanged.
The parser does not enforce the invariant. -/
theorem claim_c5_subtract_construction_invariant :
    ∀ a b c : Bounds,
      a.minWidth.isNum = true → a.maxWidth.isNum = true →
      b.minWidth.isNum = true → b.maxWidth.isNum = true →
      some c ∈ toElems (subtractScalar (some a) (some b)) →
      c = a ∨ (c.minWidth.le c.maxWidth = true ∧
               c.minWidth.jsEq c.maxWidth = false) := by
  intro a b c hamin hamax hbmin hbmax hc
  simp only [subtractScalar] at hc
  by_cases h1 : boundsIncluded a b = true
  · simp [h1, toElems] at hc
  · rw [Bool.not_eq_true] at h1
    by_cases h2 : boundsIncluded b a = true
    · simp only [h1, h2, if_false, if_true, Bool.false_eq_true, toElems,
        List.map, List.mem_cons, List.not_mem_nil, or_false] at hc
      simp only [boundsIncluded, Bool.and_eq_true, JSNum.ge] at h2
      simp only [nullBounds] at hc
      right
      rcases hc with hc | hc
      · split_ifs at hc with hdeg
        injection hc with h
        subst h
        exact ⟨h2.1, by simpa using hdeg⟩
      · split_ifs at hc with hdeg
        injection hc with h
        subst h
        exact ⟨h2.2, by simpa using hdeg⟩
    · rw [Bool.not_eq_true] at h2
      by_cases h3 : boundsIntersects a b = true
      · simp only [h1, h2, h3, Bool.false_eq_true, if_false, if_true] at hc
        by_cases h4 : a.minWidth.lt b.minWidth = true
        · simp only [h4, if_true, toElems, List.mem_singleton] at hc
          obtain rfl : c = ⟨a.minWidth, b.minWidth⟩ := by
            cases hc; rfl
          exact Or.inr ⟨JSNum.le_of_lt h4, JSNum.jsEq_false_of_lt h4⟩
        · rw [Bool.not_eq_true] at h4
          simp only [h4, Bool.false_eq_true, if_false, toElems,
            List.mem_singleton] at hc
          obtain rfl : c = ⟨b.maxWidth, a.maxWidth⟩ := by
            cases hc; rfl
          have hble : b.minWidth.le a.minWidth = true :=
            JSNum.le_of_not_lt hamin hbmin h4
          have hnle : a.maxWidth.le b.maxWidth = false := by
            cases hq : a.maxWidth.le b.maxWidth
            · rfl
            · exfalso
              have : boundsIncluded a b = true := by
                simp [boundsIncluded, JSNum.ge, hble, hq]
              rw [this] at h1; cases h1
          have hlt : b.maxWidth.lt a.maxWidth = true :=
            JSNum.lt_of_not_le hamax hbmax hnle
          exact Or.inr ⟨JSNum.le_of_lt hlt, JSNum.jsEq_false_of_lt hlt⟩
      · rw [Bool.not_eq_true] at h3
        simp only [h1, h2, h3, Bool.false_eq_true, if_false, toElems,
          List.mem_singleton] at hc
        left
        cases hc; rfl

/-- C5 witness: subtracting [2,4) out of the middle of [0,10) constructs
the member [0,2), which satisfies the invariant. -/
theorem claim_c5_subtract_construction_invariant_witness :
    (JSNum.int 0).isNum = true ∧ (JSNum.int 10).isNum = true ∧
    (JSNum.int 2).isNum = true ∧ (JSNum.int 4).isNum = true ∧
    (some (Bounds.mk (JSNum.int 0) (JSNum.int 2)) ∈
      toElems (subtractScalar (some ⟨JSNum.int 0, JSNum.int 10⟩)
        (some ⟨JSNum.int 2, JSNum.int 4⟩))) ∧
    (Bounds.mk (JSNum.int 0) (JSNum.int 2) = ⟨JSNum.int 0, JSNum.int 10⟩ ∨
      ((JSNum.int 0).le (JSNum.int 2) = true ∧
       (JSNum.int 0).jsEq (JSNum.int 2) = false)) :=
  ⟨by decide, by decide, by decide, by decide, by decide,
    claim_c5_subtract_construction_invariant ⟨JSNum.int 0, JSNum.int 10⟩
      ⟨JSNum.int 2, JSNum.int 4⟩ ⟨JSNum.int 0, JSNum.int 2⟩
      (by decide) (by decide) (by decide) (by decide) (by decide)⟩


/-- Untracked is included in nothing: its NaN endpoint fails every
comparison. -/
lemma untracked_not_included_left (v : Bounds) :
    boundsIncluded untracked v = false := by
  simp [boundsIncluded, untracked, JSNum.ge]

/-- Nothing is included in Untracked. -/
lemma untracked_not_included_right (v : Bounds) :
    boundsIncluded v untracked = false := by
  simp [boundsIncluded, untracked, JSNum.ge]

/-- Untracked intersects nothing. -/
lemma untracked_not_intersects_left (v : Bounds) :
    boundsIntersects untracked v = false := by
  simp [boundsIntersects, untracked, JSNum.gt]

/-- Nothing intersects Untracked. -/
lemma untracked_not_intersects_right (v : Bounds) :
    boundsIntersects v untracked = false := by
  simp [boundsIntersects, untracked, JSNum.gt]

/-- Subtracting any bounds from Untracked falls through every branch and
returns Untracked unchanged. -/
lemma untracked_subtract (b : Bounds) :
    subtractScalar (some untracked) (some b) = BVal.bounds untracked := by
  simp [subtractScalar, untracked_not_included_left,
    untracked_not_included_right, untracked_not_intersects_left]

/-- JavaScript `x == 0` holds exactly for the number 0. -/
lemma jsEq_zero_iff (x : JSNum) :
    x.jsEq (JSNum.int 0) = true ↔ x = JSNum.int 0 := by
  cases x <;> simp [JSNum.jsEq]

/-- The reduce of the callback splits into the emission trace (one label
per candidate, appended in order) and the running subtraction. -/
lemma foldl_reduceStep (opts : MQOptions) (l : List (String × String))
    (emits : List String) (rem : BVal) :
    l.foldl (reduceStep opts) (emits, rem) =
      (emits ++ l.map (fun c => candidateLabel opts c.1),
       l.foldl (fun r c => subtractBounds r (some (getQueryBounds c.2))) rem) := by
  induction l generalizing emits rem with
  | nil => simp
  | cons x xs ih =>
    rw [List.foldl_cons, List.foldl_cons]
    rw [ih]
    simp [reduceStep]

/-- A remainder list holding exactly Untracked is a fixed point of the
whole candidate subtraction fold. -/
lemma fold_untracked (l : List (String × String)) :
    l.foldl (fun r c => subtractBounds r (some (getQueryBounds c.2)))
      (BVal.list [some untracked]) = BVal.list [some untracked] := by
  induction l with
  | nil => rfl
  | cons x xs ih =>
    rw [List.foldl_cons]
    have hstep : subtractBounds (BVal.list [some untracked])
        (some (getQueryBounds x.2)) = BVal.list [some untracked] := by
      simp [subtractBounds, untracked_subtract, toElems]
    rw [hstep]
    exact ih

/-- C1: a rule is removed exactly when its candidate list is non-empty
and the residual size is exactly the number 0; a rule matching zero
candidates is always left unchanged. -/
theorem claim_c1_removal_decision :
    ∀ (opts : MQOptions) (params : String),
      (ruleRemoved opts params = true ↔
        (queryNamesOf opts params ≠ [] ∧
         boundsRemainderSize opts params = JSNum.int 0)) ∧
      (queryNamesOf opts params = [] → ruleRemoved opts params = false) := by
  intro opts params
  constructor
  · simp only [ruleRemoved, Bool.and_eq_true, decide_eq_true_eq,
      jsEq_zero_iff]
    rw [gt_iff_lt, List.length_pos]
  · intro h
    simp [ruleRemoved, h]

/-- C1 witness: with an empty breakpoint table no candidate matches and
the rule stays. -/
theorem claim_c1_removal_decision_witness :
    queryNamesOf ⟨[], [], "app"⟩ ("screen") = [] ∧
    ruleRemoved ⟨[], [], "app"⟩ ("screen") = false :=
  ⟨by decide,
    (claim_c1_removal_decision ⟨[], [], "app"⟩ ("screen")).2 (by decide)⟩

/-- C3: the candidate sequence is the bounds matches followed by the
definition matches with no deduplication, the reducer records exactly one
emission per candidate occurrence in candidate order, and the remainder
is the fold of the candidate subtractions in the same order; a breakpoint
matching both ways appears twice and is emitted twice. -/
theorem claim_c3_candidates_and_emissions :
    (∀ (opts : MQOptions) (params : String),
      queryNamesOf opts params =
        getQueryNamesByBounds opts (getQueryBounds params) ++
          getQueryNamesByDefinition opts params ∧
      (processAtRule opts params).1 =
        (queryNamesOf opts params).map (fun c => candidateLabel opts c.1) ∧
      (processAtRule opts params).2 =
        (queryNamesOf opts params).foldl
          (fun r c => subtractBounds r (some (getQueryBounds c.2)))
          (BVal.list [some (getQueryBounds params)])) ∧
    queryNamesOf ⟨[("(min-width:100px)", "mobile")], [], "app"⟩
        ("(min-width:100px)") =
      [("mobile", "(min-width:100px)"), ("mobile", "(min-width:100px)")] ∧
    (processAtRule ⟨[("(min-width:100px)", "mobile")], [], "app"⟩
        ("(min-width:100px)")).1 = ["app-mobile", "app-mobile"] := by
  refine ⟨?_, by decide, by decide⟩
  intro opts params
  refine ⟨rfl, ?_, ?_⟩ <;> simp [processAtRule, foldl_reduceStep]

/-- C10: for a rule whose parsed bounds are Untracked, subtracting any
breakpoint bounds leaves the remainder unchanged, no candidate matches by
bounds, the residual size is exactly 0, and hence the rule is removed as
soon as it matches at least one candidate (necessarily by textual
alias). -/
theorem claim_c10_untracked_rule :
    ∀ (opts : MQOptions) (params : String),
      getQueryBounds params = untracked →
      (∀ b : Bounds,
        subtractScalar (some untracked) (some b) = BVal.bounds untracked) ∧
      getQueryNamesByBounds opts (getQueryBounds params) = [] ∧
      boundsRemainderSize opts params = JSNum.int 0 ∧
      (queryNamesOf opts params ≠ [] → ruleRemoved opts params = true) := by
  intro opts params hp
  have hby : getQueryNamesByBounds opts (getQueryBounds params) = [] := by
    rw [hp]
    have hfil : opts.queries.filter
        (fun p => boundsIntersects untracked (getQueryBounds p.1)) = [] :=
      List.filter_eq_nil_iff.mpr
        (fun p _ => by simp [untracked_not_intersects_left])
    simp [getQueryNamesByBounds, hfil]
  have hrem : (processAtRule opts params).2 = BVal.list [some untracked] := by
    unfold processAtRule
    rw [foldl_reduceStep, hp]
    exact congrArg Prod.snd rfl ▸ fold_untracked (queryNamesOf opts params)
  have hsize : boundsRemainderSize opts params = JSNum.int 0 := by
    unfold boundsRemainderSize
    rw [hrem]
    decide
  refine ⟨untracked_subtract, hby, hsize, ?_⟩
  intro hne
  have hlen : 0 < (queryNamesOf opts params).length := List.length_pos.mpr hne
  simp [ruleRemoved, hsize, hlen, JSNum.jsEq]

/-- C10 witness: a rule "screen" parses to Untracked, matches the
configured breakpoint "screen" by alias, and is removed. -/
theorem claim_c10_untracked_rule_witness :
    getQueryBounds ("screen") = untracked ∧
    queryNamesOf ⟨[("screen", "desktop")], [], "app"⟩ ("screen") ≠ [] ∧
    ruleRemoved ⟨[("screen", "desktop")], [], "app"⟩ ("screen") = true :=
  ⟨by decide, by decide,
    (claim_c10_untracked_rule ⟨[("screen", "desktop")], [], "app"⟩ ("screen")
      (by decide)).2.2.2 (by decide)⟩

end MQ
